import Mathlib

/-!
Verification of the TIHAMIS FRAGRANCES e-commerce storefront
(React frontend `App.js` and Express backend `server.js`).

Shallow embedding conventions:
* JavaScript numbers are modelled as exact rationals (`ℚ`); the price,
  tax, shipping and discount arithmetic of the program stays well inside
  the range where IEEE doubles and exact rationals agree on the decimal
  literals involved, and the specification states the pricing values as
  exact decimals.
* JavaScript strings are modelled as `String`; `toLowerCase`/`toUpperCase`
  are modelled as per-character ASCII case mapping (`Char.toLower` /
  `Char.toUpper`), which agrees with JavaScript on the ASCII data the
  program uses.
* React state updates are modelled as pure state-transition functions on
  the relevant state (the cart list, the applied-promo option).
* MongoDB `$regex` queries with option `i` are modelled by an explicit
  case-insensitive matcher for the literal/dot pattern fragment: every
  ordinary character is a literal and `.` matches any character other
  than a newline (PCRE default). Patterns containing any other PCRE
  metacharacter (quantifiers, classes, groups, anchors, escapes,
  alternation) are outside the modelled fragment, and the model of the
  search route is explicitly partial there (`Option`), asserting nothing
  about the route's behaviour on such queries.
-/

/-- A catalog product as served by the backend (`server.js`, productSchema)
and consumed by the client. Only the fields the verified operations touch
are modelled. -/
structure Product where
  _id : String
  name : String
  brand : String
  description : String
  category : String
  price : ℚ
deriving DecidableEq

/-- A client-side cart line item: in `App.js` a cart entry is the spread of
a product with a `quantity` field (`{ ...product, quantity }`); only the
fields the verified operations read are modelled. -/
structure CartItem where
  _id : String
  price : ℚ
  quantity : ℕ
deriving DecidableEq

/-- Model of JavaScript `String.prototype.toUpperCase` (per-character ASCII
case mapping, which agrees with JS on the promo-code alphabet). -/
def jsToUpper (s : String) : String :=
  String.mk (s.data.map Char.toUpper)

/-- Embeds `addToCart` (App.js lines 58-75): if an entry with the product's
`_id` already exists, map over the cart incrementing that entry's quantity;
otherwise append `{ ...product, quantity }`. The JS default argument is
`quantity = 1`. -/
def addToCart (cart : List CartItem) (product : Product) (quantity : ℕ) :
    List CartItem :=
  if cart.any (fun item => item._id == product._id) then
    cart.map (fun item =>
      if item._id == product._id then
        { item with quantity := item.quantity + quantity }
      else item)
  else
    cart ++ [{ _id := product._id, price := product.price, quantity := quantity }]

/-- Embeds `getCartTotal` (App.js lines 104-106):
`cart.reduce((total, item) => total + item.price * item.quantity, 0)`. -/
def getCartTotal (cart : List CartItem) : ℚ :=
  cart.foldl (fun total item => total + item.price * item.quantity) 0

/-- Embeds the `totalAmount` field built by `CheckoutPage.handleSubmit`
(App.js lines 703-721): the checkout page receives
`cartTotal={getCartTotal()}` from `App` (line 232) and submits
`totalAmount: parseFloat(cartTotal)`; `parseFloat` applied to a finite
number round-trips it unchanged, so the submitted amount is exactly
`getCartTotal`. -/
def orderTotalAmount (cart : List CartItem) : ℚ :=
  getCartTotal cart

/-- Discount kind of a promo-code entry (`type: 'percentage' | 'flat'`). -/
inductive PromoType where
  | percentage
  | flat
deriving DecidableEq

/-- A promo-code table entry (`{ discount, type }`, App.js lines 518-523). -/
structure Promo where
  discount : ℚ
  type : PromoType
deriving DecidableEq

/-- Embeds the fixed `promoCodes` object of `CartPage` (App.js lines
518-523): property lookup on the four-key object literal. -/
def promoCodes (key : String) : Option Promo :=
  if key = "SAVE10" then some ⟨10, PromoType.percentage⟩
  else if key = "SAVE20" then some ⟨20, PromoType.percentage⟩
  else if key = "FIRSTORDER" then some ⟨15, PromoType.flat⟩
  else if key = "WELCOME" then some ⟨5, PromoType.percentage⟩
  else none

/-- Embeds `handleApplyPromo` (App.js lines 540-549) as a transition on the
`appliedPromo` state: look up `promoCode.toUpperCase()` in `promoCodes`;
on a hit `setAppliedPromo(promo)`, otherwise `setAppliedPromo(null)`. -/
def handleApplyPromo (promoCode : String) (_appliedPromo : Option Promo) :
    Option Promo :=
  match promoCodes (jsToUpper promoCode) with
  | some promo => some promo
  | none => none

/-- Embeds the `subtotal` computation of `CartPage` (App.js line 525):
`cart.reduce((sum, item) => sum + item.price * item.quantity, 0)`. -/
def subtotal (cart : List CartItem) : ℚ :=
  cart.foldl (fun sum item => sum + item.price * item.quantity) 0

/-- Embeds `tax` (App.js line 526): `subtotal * 0.08`. -/
def tax (cart : List CartItem) : ℚ :=
  subtotal cart * 0.08

/-- Embeds `shipping` (App.js line 527): `subtotal > 100 ? 0 : 10`. -/
def shipping (cart : List CartItem) : ℚ :=
  if subtotal cart > 100 then 0 else 10

/-- Embeds the `discount` computation of `CartPage` (App.js lines 529-536):
0 without an applied promo, `subtotal * promo.discount / 100` for a
percentage promo, `promo.discount` for a flat promo. -/
def discount (cart : List CartItem) (appliedPromo : Option Promo) : ℚ :=
  match appliedPromo with
  | none => 0
  | some promo =>
    match promo.type with
    | PromoType.percentage => subtotal cart * promo.discount / 100
    | PromoType.flat => promo.discount

/-- Embeds `total` (App.js line 538):
`subtotal + tax + shipping - discount`. -/
def total (cart : List CartItem) (appliedPromo : Option Promo) : ℚ :=
  subtotal cart + tax cart + shipping cart - discount cart appliedPromo

/-- Case-insensitive substring containment: whether `pat` occurs inside
`hay` after ASCII-lowercasing both sides. This is the meaning of the
JavaScript idiom `hay.toLowerCase().includes(pat.toLowerCase())` used by
the client filter, and of the specification phrase "case-insensitively
contains ... as a substring". -/
def containsCI (hay pat : String) : Bool :=
  (hay.data.map Char.toLower).tails.any
    (fun t => (pat.data.map Char.toLower).isPrefixOf t)

/-- Embeds the query predicate of `filterProducts` (App.js lines 132-138):
the query is matched case-insensitively against `name`, `brand` and
`description` only. -/
def clientMatch (query : String) (p : Product) : Bool :=
  containsCI p.name query || containsCI p.brand query ||
    containsCI p.description query

/-- Embeds `filterProducts` (App.js lines 125-141): first the category
filter (exact equality, skipped for the sentinel `"all"`), then — when the
query string is truthy, i.e. nonempty — the case-insensitive query filter
over name, brand and description. -/
def filterProducts (products : List Product) (query category : String) :
    List Product :=
  let filtered :=
    if category ≠ "all" then
      products.filter (fun p => p.category == category)
    else products
  if query ≠ "" then filtered.filter (clientMatch query) else filtered

/-- A token of a MongoDB/PCRE regex pattern in the fragment modelled here:
a literal character, or `.` (any character except newline). -/
inductive RTok where
  | dot
  | lit (c : Char)
deriving DecidableEq

/-- The PCRE metacharacters that MongoDB `$regex` honors in the raw
user-supplied query. -/
def rxMetaChars : List Char :=
  ['.', '*', '+', '?', '[', ']', '(', ')', '\x7b', '\x7d', '^', '$', '\\', '|']

/-- Parses the user-supplied query string into regex tokens of the
modelled fragment: `.` becomes the any-character token, ordinary
characters become literals, and a pattern containing any other PCRE
metacharacter lies outside the modelled fragment (`none`) — the model
makes no statement about the route's behaviour on such queries. -/
def parseRx (pattern : List Char) : Option (List RTok) :=
  if pattern.any (fun c => c ≠ '.' && rxMetaChars.contains c) then none
  else some (pattern.map (fun c => if c = '.' then RTok.dot else RTok.lit c))

/-- Whether one regex token matches one subject character, under the `i`
option (ASCII case folding on literals). -/
def tokMatch : RTok → Char → Bool
  | RTok.dot, c => !(c == '\n')
  | RTok.lit a, c => a.toLower == c.toLower

/-- Whether the token list matches a prefix of the subject. -/
def matchHere : List RTok → List Char → Bool
  | [], _ => true
  | _ :: _, [] => false
  | t :: ts, c :: cs => tokMatch t c && matchHere ts cs

/-- Unanchored regex search, as MongoDB `$regex` performs: the pattern may
match starting at any position of the subject. -/
def rxSearch (ts : List RTok) (s : List Char) : Bool :=
  s.tails.any (matchHere ts)

/-- Embeds `GET /api/products/search/:query` (server.js lines 263-278):
`Product.find` with an `$or` of case-insensitive `$regex` conditions on
`name`, `brand`, `description` and `category`. The route is modelled only
for queries inside the literal/dot regex fragment; for a query containing
any other PCRE metacharacter the model returns `none` rather than
asserting a behaviour the fragment does not cover. -/
def searchRoute (query : String) (products : List Product) :
    Option (List Product) :=
  (parseRx query.data).map (fun ts =>
    products.filter (fun p =>
      rxSearch ts p.name.data || rxSearch ts p.brand.data ||
        rxSearch ts p.description.data || rxSearch ts p.category.data))

/-- Stated from the specification's words, for comparison with
`searchRoute`: the products for which the query occurs case-insensitively
as a substring of name, brand, description or category. -/
def searchSpec (query : String) (products : List Product) : List Product :=
  products.filter (fun p =>
    containsCI p.name query || containsCI p.brand query ||
      containsCI p.description query || containsCI p.category query)

/-- Embeds `GET /api/products/category/:category` (server.js lines
281-288): `Product.find({ category: req.params.category })`, an exact
field-equality query. -/
def categoryRoute (category : String) (products : List Product) :
    List Product :=
  products.filter (fun p => p.category == category)

/-! ### Concrete data used by closed theorems -/

/-- A one-item cart with subtotal 50 (below the free-shipping threshold). -/
def cartC1 : List CartItem := [⟨"a", 50, 1⟩]

/-- A one-item cart with subtotal 50, used to exercise the boundary and
negative-total branches of the pricing computation. -/
def cartC2 : List CartItem := [⟨"w", 50, 1⟩]

/-- The cart of the specification's worked pricing example:
items [{price: 1600, quantity: 2}, {price: 64.99, quantity: 1}]. -/
def cartC3 : List CartItem := [⟨"p1", 1600, 2⟩, ⟨"p2", 64.99, 1⟩]

/-- A small cart used by the invalid-promo reset instance. -/
def cartC4 : List CartItem := [⟨"b", 20, 3⟩]

/-- Cart item with a decimal price, for the reordering instance. -/
def itemA : CartItem := ⟨"a", 19.99, 1⟩

/-- Second cart item for the reordering instance. -/
def itemB : CartItem := ⟨"b", 80, 2⟩

/-! ### Helper lemmas about the pricing fold -/

lemma foldl_price_qty (l : List CartItem) (a : ℚ) :
    l.foldl (fun sum item => sum + item.price * (item.quantity : ℚ)) a
      = a + (l.map fun item => item.price * (item.quantity : ℚ)).sum := by
  induction l generalizing a with
  | nil => simp
  | cons x xs ih =>
    rw [List.foldl_cons, ih, List.map_cons, List.sum_cons, add_assoc]

lemma subtotal_eq_sum (cart : List CartItem) :
    subtotal cart = (cart.map fun item => item.price * (item.quantity : ℚ)).sum := by
  simpa [subtotal] using foldl_price_qty cart 0

/-- C1 counterexample: for the cart [{price: 50, quantity: 1}] with no promo
applied, the totalAmount submitted by the checkout flow (the plain cart sum
50) differs from the cart page's pricing total (50 + 4 tax + 10 shipping =
64), refuting the claim that the submitted totalAmount includes tax,
shipping and discount. -/
theorem orderTotal_ne_pricingTotal :
    orderTotalAmount cartC1 ≠ total cartC1 none := by
  norm_num [orderTotalAmount, getCartTotal, total, subtotal, tax, shipping,
    discount, cartC1]

/-- C1 (amended): for every cart, the totalAmount submitted by the checkout
flow equals exactly the cart subtotal Σ(item.price × item.quantity); the
tax, shipping and discount computed on the cart page are not included in
the submitted amount. -/
theorem orderTotal_eq_subtotal (cart : List CartItem) :
    orderTotalAmount cart
      = (cart.map fun item => item.price * (item.quantity : ℚ)).sum
    ∧ orderTotalAmount cart = subtotal cart := by
  have h : orderTotalAmount cart = subtotal cart := rfl
  exact ⟨h.trans (subtotal_eq_sum cart), h⟩

/-- C2: for every cart and applied promo state, subtotal is the sum of
price × quantity, tax is 8% of the subtotal, shipping is 0 above the
100 threshold and exactly 10 at or below it (so at subtotal exactly 100
shipping is 10), total is subtotal + tax + shipping − discount, and the
total is not clamped: a discount exceeding subtotal + tax + shipping
yields a negative total. -/
theorem pricing_formulas (cart : List CartItem) (appliedPromo : Option Promo) :
    subtotal cart = (cart.map fun item => item.price * (item.quantity : ℚ)).sum
    ∧ tax cart = subtotal cart * (8 / 100)
    ∧ (subtotal cart > 100 → shipping cart = 0)
    ∧ (subtotal cart ≤ 100 → shipping cart = 10)
    ∧ total cart appliedPromo
        = subtotal cart + tax cart + shipping cart - discount cart appliedPromo
    ∧ (subtotal cart + tax cart + shipping cart < discount cart appliedPromo →
        total cart appliedPromo < 0) := by
  refine ⟨subtotal_eq_sum cart, by norm_num [tax], ?_, ?_, rfl, ?_⟩
  · intro h
    simp [shipping, h]
  · intro h
    rw [shipping, if_neg (not_lt.mpr h)]
  · intro h
    simpa [total, sub_neg] using h

/-- Witness for `pricing_formulas`: on the concrete cart with subtotal 50,
shipping is 10 (50 ≤ 100), and with a flat discount of 100 the total is
negative (50 + 4 + 10 < 100). -/
theorem pricing_formulas_witness :
    shipping cartC2 = 10 ∧ total cartC2 (some ⟨100, PromoType.flat⟩) < 0 :=
  ⟨(pricing_formulas cartC2 none).2.2.2.1 (by norm_num [subtotal, cartC2]),
   (pricing_formulas cartC2 (some ⟨100, PromoType.flat⟩)).2.2.2.2.2
     (by norm_num [subtotal, tax, shipping, discount, cartC2])⟩

/-- C3: on the cart [{price: 1600, quantity: 2}, {price: 64.99, quantity: 1}]
with promo code "SAVE10" applied, the pricing computation yields
subtotal 3264.99, tax 261.1992, shipping 0, discount 326.499 and total
3199.6902 (exact rational arithmetic). -/
theorem pricing_save10_example :
    subtotal cartC3 = 3264.99
    ∧ tax cartC3 = 261.1992
    ∧ shipping cartC3 = 0
    ∧ discount cartC3 (handleApplyPromo "SAVE10" none) = 326.499
    ∧ total cartC3 (handleApplyPromo "SAVE10" none) = 3199.6902 := by
  have h : handleApplyPromo "SAVE10" none = some ⟨10, PromoType.percentage⟩ := by
    decide
  refine ⟨by norm_num [subtotal, cartC3], by norm_num [tax, subtotal, cartC3],
    by norm_num [shipping, subtotal, cartC3], ?_, ?_⟩
  · rw [h]
    norm_num [discount, subtotal, cartC3]
  · rw [h]
    norm_num [total, subtotal, tax, shipping, discount, cartC3]

/-- C4: for every entered code whose uppercasing misses the promo table,
every previously applied promo and every cart: applying the code resets
the applied-promo state to none, the resulting discount is 0, and applying
any further code from that state behaves exactly as if no promo had ever
been applied. -/
theorem invalid_promo_resets (s : String) (prev : Option Promo)
    (cart : List CartItem) (h : promoCodes (jsToUpper s) = none) :
    handleApplyPromo s prev = none
    ∧ discount cart (handleApplyPromo s prev) = 0
    ∧ ∀ s2 : String,
        handleApplyPromo s2 (handleApplyPromo s prev) = handleApplyPromo s2 none := by
  have h1 : handleApplyPromo s prev = none := by
    simp [handleApplyPromo, h]
  refine ⟨h1, ?_, fun s2 => rfl⟩
  rw [h1]
  rfl

/-- Witness for `invalid_promo_resets`: entering "BOGUS" after a 20% promo
resets the state to none, gives discount 0, and a subsequent "save20"
behaves as from the initial state. -/
theorem invalid_promo_resets_witness :
    handleApplyPromo "BOGUS" (some ⟨20, PromoType.percentage⟩) = none
    ∧ discount cartC4 (handleApplyPromo "BOGUS" (some ⟨20, PromoType.percentage⟩)) = 0
    ∧ handleApplyPromo "save20"
        (handleApplyPromo "BOGUS" (some ⟨20, PromoType.percentage⟩))
        = handleApplyPromo "save20" none :=
  ⟨(invalid_promo_resets "BOGUS" _ cartC4 (by decide)).1,
   (invalid_promo_resets "BOGUS" _ cartC4 (by decide)).2.1,
   (invalid_promo_resets "BOGUS" _ cartC4 (by decide)).2.2 "save20"⟩

/-- C5: pricing is invariant under reordering of the cart's line items:
for every pair of carts that are permutations of each other and every
promo state, subtotal, tax, shipping, discount and total all coincide. -/
theorem pricing_perm_invariant (c c' : List CartItem)
    (appliedPromo : Option Promo) (h : c.Perm c') :
    subtotal c = subtotal c'
    ∧ tax c = tax c'
    ∧ shipping c = shipping c'
    ∧ discount c appliedPromo = discount c' appliedPromo
    ∧ total c appliedPromo = total c' appliedPromo := by
  have hs : subtotal c = subtotal c' := by
    rw [subtotal_eq_sum, subtotal_eq_sum]
    exact (h.map _).sum_eq
  have ht : tax c = tax c' := by
    rw [tax, tax, hs]
  have hsh : shipping c = shipping c' := by
    rw [shipping, shipping, hs]
  have hd : discount c appliedPromo = discount c' appliedPromo := by
    match appliedPromo with
    | none => rfl
    | some ⟨d, PromoType.percentage⟩ => simp [discount, hs]
    | some ⟨d, PromoType.flat⟩ => rfl
  exact ⟨hs, ht, hsh, hd, by rw [total, total, hs, ht, hsh, hd]⟩

/-- Witness for `pricing_perm_invariant`: swapping the two items of a
concrete cart leaves every pricing component unchanged. -/
theorem pricing_perm_invariant_witness :
    subtotal [itemA, itemB] = subtotal [itemB, itemA]
    ∧ tax [itemA, itemB] = tax [itemB, itemA]
    ∧ shipping [itemA, itemB] = shipping [itemB, itemA]
    ∧ discount [itemA, itemB] none = discount [itemB, itemA] none
    ∧ total [itemA, itemB] none = total [itemB, itemA] none :=
  pricing_perm_invariant [itemA, itemB] [itemB, itemA] none
    (List.Perm.swap itemB itemA [])

/-! ### Cart-merge behaviour of addToCart -/

/-- The per-item update performed by the merge branch of `addToCart`
(`{ ...item, quantity: item.quantity + quantity }` for the matching id). -/
def bumpQty (pid : String) (q : ℕ) (item : CartItem) : CartItem :=
  if item._id == pid then { item with quantity := item.quantity + q } else item

/-- Number of cart entries whose `_id` equals `id`. -/
def countId (cart : List CartItem) (id : String) : ℕ :=
  (cart.filter (fun it => it._id == id)).length

/-- Total quantity held by the cart entries whose `_id` equals `id`. -/
def qtyOf (cart : List CartItem) (id : String) : ℕ :=
  ((cart.filter (fun it => it._id == id)).map CartItem.quantity).sum

lemma addToCart_eq (cart : List CartItem) (product : Product) (q : ℕ) :
    addToCart cart product q =
      if cart.any (fun item => item._id == product._id) then
        cart.map (bumpQty product._id q)
      else cart ++ [⟨product._id, product.price, q⟩] := rfl

lemma bumpQty_id (pid : String) (q : ℕ) (item : CartItem) :
    (bumpQty pid q item)._id = item._id := by
  unfold bumpQty
  split <;> rfl

lemma filter_map_bump (pid id : String) (q : ℕ) (l : List CartItem) :
    (l.map (bumpQty pid q)).filter (fun it => it._id == id)
      = (l.filter (fun it => it._id == id)).map (bumpQty pid q) := by
  have hp : ((fun it : CartItem => it._id == id) ∘ bumpQty pid q)
      = fun it : CartItem => it._id == id := by
    funext it
    simp [Function.comp, bumpQty_id]
  rw [List.filter_map, hp]

/-- C8: for a cart holding at most one entry with the product's id, adding
the product with quantity q leaves exactly one entry with that id (no
duplicate line item), raises the total quantity held under that id by
exactly q (merging into the existing entry, or creating a fresh entry with
quantity q when absent), leaves entries with every other id untouched, and
in the absent case appends precisely the new entry. -/
theorem addToCart_merges (cart : List CartItem) (product : Product) (q : ℕ)
    (h : countId cart product._id ≤ 1) :
    countId (addToCart cart product q) product._id = 1
    ∧ qtyOf (addToCart cart product q) product._id = qtyOf cart product._id + q
    ∧ (∀ oid, oid ≠ product._id →
        (addToCart cart product q).filter (fun it => it._id == oid)
          = cart.filter (fun it => it._id == oid))
    ∧ (cart.any (fun item => item._id == product._id) = false →
        addToCart cart product q = cart ++ [⟨product._id, product.price, q⟩]) := by
  by_cases hmem : cart.any (fun item => item._id == product._id) = true
  · have heq : addToCart cart product q = cart.map (bumpQty product._id q) := by
      rw [addToCart_eq, if_pos hmem]
    have hcount : countId cart product._id = 1 := by
      have hpos : 0 < countId cart product._id := by
        obtain ⟨x, hx, hpx⟩ := List.any_eq_true.mp hmem
        exact List.length_pos.mpr
          (List.ne_nil_of_mem (List.mem_filter.mpr ⟨hx, hpx⟩))
      omega
    obtain ⟨it0, hit0⟩ := List.length_eq_one.mp hcount
    have hit0mem : it0 ∈ cart.filter (fun it => it._id == product._id) := by
      rw [hit0]
      exact List.mem_singleton.mpr rfl
    have hit0id : (it0._id == product._id) = true :=
      (List.mem_filter.mp hit0mem).2
    have hbump0 : bumpQty product._id q it0
        = { it0 with quantity := it0.quantity + q } := by
      rw [bumpQty, if_pos hit0id]
    refine ⟨?_, ?_, ?_, ?_⟩
    · rw [countId, heq, filter_map_bump, hit0]
      rfl
    · rw [qtyOf, heq, filter_map_bump, hit0, qtyOf, hit0]
      simp [hbump0]
    · intro oid hoid
      rw [heq, filter_map_bump]
      have hfix : ∀ x ∈ cart.filter (fun it => it._id == oid),
          bumpQty product._id q x = x := by
        intro x hx
        have hxid : x._id = oid := beq_iff_eq.mp (List.mem_filter.mp hx).2
        rw [bumpQty, if_neg]
        rw [hxid]
        exact fun hc => hoid (beq_iff_eq.mp hc)
      rw [List.map_congr_left hfix]
      simp
    · intro habs
      rw [habs] at hmem
      exact absurd hmem (by simp)
  · have hfalse : cart.any (fun item => item._id == product._id) = false := by
      simpa using hmem
    have heq : addToCart cart product q
        = cart ++ [⟨product._id, product.price, q⟩] := by
      rw [addToCart_eq, if_neg (by simp [hfalse])]
    have hnil : cart.filter (fun it => it._id == product._id) = [] :=
      List.filter_eq_nil_iff.mpr (List.any_eq_false.mp hfalse)
    refine ⟨?_, ?_, ?_, fun _ => heq⟩
    · rw [countId, heq, List.filter_append, hnil]
      simp
    · rw [qtyOf, heq, List.filter_append, hnil, qtyOf, hnil]
      simp
    · intro oid hoid
      rw [heq, List.filter_append]
      have : ((⟨product._id, product.price, q⟩ : CartItem)._id == oid) = false :=
        beq_eq_false_iff_ne.mpr (fun hc => hoid hc.symm)
      simp [this]

/-- Witness for `addToCart_merges`: adding one unit of a product already in
the cart keeps a single line item for it and raises its quantity by 1. -/
theorem addToCart_merges_witness :
    countId (addToCart [⟨"x", 30, 2⟩] ⟨"x", "N", "B", "D", "C", 30⟩ 1) "x" = 1
    ∧ qtyOf (addToCart [⟨"x", 30, 2⟩] ⟨"x", "N", "B", "D", "C", 30⟩ 1) "x"
        = qtyOf [(⟨"x", 30, 2⟩ : CartItem)] "x" + 1 :=
  ⟨(addToCart_merges [⟨"x", 30, 2⟩] ⟨"x", "N", "B", "D", "C", 30⟩ 1 (by decide)).1,
   (addToCart_merges [⟨"x", 30, 2⟩] ⟨"x", "N", "B", "D", "C", 30⟩ 1 (by decide)).2.1⟩

/-! ### Promo-code lookup -/

lemma handleApplyPromo_eq_lookup (s : String) (prev : Option Promo) :
    handleApplyPromo s prev = promoCodes (jsToUpper s) := by
  cases h : promoCodes (jsToUpper s) <;> simp [handleApplyPromo, h]

/-- C9: promo lookup uppercases the entered code before consulting the
fixed table, so it succeeds exactly when the uppercased code is one of
SAVE10, SAVE20, FIRSTORDER or WELCOME; the table carries a 10% and a 20%
percentage entry, a 15 flat entry and a 5% percentage entry, and the
lowercase entry "save10" applies the SAVE10 discount. -/
theorem promo_lookup_case_insensitive :
    (∀ (s : String) (prev : Option Promo),
        (handleApplyPromo s prev).isSome = true ↔
          (jsToUpper s = "SAVE10" ∨ jsToUpper s = "SAVE20"
            ∨ jsToUpper s = "FIRSTORDER" ∨ jsToUpper s = "WELCOME"))
    ∧ handleApplyPromo "save10" none = some ⟨10, PromoType.percentage⟩
    ∧ promoCodes "SAVE10" = some ⟨10, PromoType.percentage⟩
    ∧ promoCodes "SAVE20" = some ⟨20, PromoType.percentage⟩
    ∧ promoCodes "FIRSTORDER" = some ⟨15, PromoType.flat⟩
    ∧ promoCodes "WELCOME" = some ⟨5, PromoType.percentage⟩ := by
  refine ⟨?_, by decide, by decide, by decide, by decide, by decide⟩
  intro s prev
  rw [handleApplyPromo_eq_lookup, promoCodes]
  split_ifs <;> simp [*]

/-! ### Category route -/

/-- A product whose category is exactly "floral". -/
def pFloral : Product :=
  ⟨"f1", "Midnight Rose", "Fleur de Paris", "floral masterpiece", "floral", 119⟩

/-- A product whose category differs from "floral" only in case. -/
def pFloralCap : Product :=
  ⟨"f2", "Rose Cap", "Brand", "desc", "Floral", 50⟩

/-- C7: the category route returns exactly the products whose category
field equals the given string — a case-sensitive exact match; in
particular, a product whose category is "Floral" is not returned for
"floral". -/
theorem category_exact_match :
    (∀ (c : String) (ps : List Product) (p : Product),
        p ∈ categoryRoute c ps ↔ p ∈ ps ∧ p.category = c)
    ∧ categoryRoute "floral" [pFloral, pFloralCap] = [pFloral]
    ∧ pFloralCap ∉ categoryRoute "floral" [pFloral, pFloralCap] := by
  refine ⟨?_, by decide, by decide⟩
  intro c ps p
  simp [categoryRoute, List.mem_filter]

/-! ### Client-side catalog filter -/

/-- A product containing the query "oud" only in its category field. -/
def pOud : Product :=
  ⟨"9", "Mystery", "House", "A signature scent", "oud", 70⟩

/-- C10: the client filter applies the category dropdown as an exact
equality filter (skipped for "all") conjunctively with a case-insensitive
query match over name, brand and description only — so a product whose
category alone contains the query is excluded, although the server-side
search (which also matches category) returns it. -/
theorem client_filter_ignores_category :
    (∀ (ps : List Product) (q c : String) (p : Product),
        p ∈ filterProducts ps q c ↔
          p ∈ ps ∧ (c = "all" ∨ p.category = c)
            ∧ (q = "" ∨ clientMatch q p = true))
    ∧ filterProducts [pOud] "oud" "all" = []
    ∧ searchRoute "oud" [pOud] = some [pOud] := by
  refine ⟨?_, by decide, by decide⟩
  intro ps q c p
  rw [filterProducts]
  by_cases hc : c = "all" <;> by_cases hq : q = "" <;>
    (simp [hc, hq, List.mem_filter]; all_goals tauto)

/-! ### Server search: regex behaviour versus substring behaviour -/

lemma matchHere_lit (pl : List Char) (t : List Char) :
    matchHere (pl.map RTok.lit) t
      = (pl.map Char.toLower).isPrefixOf (t.map Char.toLower) := by
  induction pl generalizing t with
  | nil => simp [matchHere, List.isPrefixOf]
  | cons c cs ih =>
    cases t with
    | nil => simp [matchHere, List.isPrefixOf]
    | cons d ds => simp [matchHere, tokMatch, List.isPrefixOf, ih]

lemma tails_map_toLower (l : List Char) :
    (l.map Char.toLower).tails = l.tails.map (List.map Char.toLower) := by
  induction l with
  | nil => rfl
  | cons c cs ih => simp [List.tails_cons, ih]

lemma parseRx_lit (q : List Char) (h : ∀ c ∈ q, c ∉ rxMetaChars) :
    parseRx q = some (q.map RTok.lit) := by
  have hno : (q.any (fun c => c ≠ '.' && rxMetaChars.contains c)) = false := by
    apply List.any_eq_false.mpr
    intro c hc
    simp [h c hc]
  rw [parseRx, if_neg (fun hc => absurd (hno ▸ hc) (by decide))]
  congr 1
  apply List.map_congr_left
  intro c hc
  have hcdot : c ≠ '.' := fun hdot => h c hc (by rw [hdot]; decide)
  rw [if_neg hcdot]

lemma rxSearch_lit (pl s : List Char) :
    rxSearch (pl.map RTok.lit) s
      = (s.map Char.toLower).tails.any
          (fun t => (pl.map Char.toLower).isPrefixOf t) := by
  have hf : matchHere (pl.map RTok.lit)
      = fun t => (pl.map Char.toLower).isPrefixOf (t.map Char.toLower) :=
    funext (matchHere_lit pl)
  rw [rxSearch, hf, tails_map_toLower, List.any_map]
  rfl

lemma rxSearch_lit_containsCI (q field : String) :
    rxSearch (q.data.map RTok.lit) field.data = containsCI field q := by
  rw [rxSearch_lit, containsCI]

lemma rxSearch_nil_pattern (s : List Char) : rxSearch [] s = true := by
  cases s with
  | nil => rfl
  | cons c cs => rfl

/-- A product none of whose fields contains a literal dot. -/
def pPlain : Product := ⟨"d1", "ab", "bb", "dd", "cc", 5⟩

/-- C6 counterexample: for the query "." on a catalog with one product
whose fields contain no dot at all, the search route (which feeds the
query to a regex engine, where `.` matches any character) returns the
product, while the substring semantics the claim states would return
nothing. -/
theorem search_regex_not_substring :
    searchRoute "." [pPlain] ≠ some (searchSpec "." [pPlain]) := by decide

/-- C6 (amended): for every query string containing no PCRE regex
metacharacter, the search route returns exactly the products for which
the query occurs case-insensitively as a substring of name, brand,
description or category; and the empty query returns the full catalog.
A query containing regex metacharacters is instead interpreted as a
regex pattern. -/
theorem search_literal_query_substring (q : String) (ps : List Product)
    (h : ∀ c ∈ q.data, c ∉ rxMetaChars) :
    searchRoute q ps = some (searchSpec q ps)
    ∧ searchRoute "" ps = some ps := by
  constructor
  · rw [searchRoute, parseRx_lit q.data h, Option.map_some']
    congr 1
    rw [searchSpec]
    apply List.filter_congr
    intro p _
    rw [rxSearch_lit_containsCI q p.name, rxSearch_lit_containsCI q p.brand,
      rxSearch_lit_containsCI q p.description,
      rxSearch_lit_containsCI q p.category]
  · have h0 : parseRx ("".data) = some [] := rfl
    rw [searchRoute, h0, Option.map_some']
    congr 1
    apply List.filter_eq_self.mpr
    intro p _
    simp [rxSearch_nil_pattern]

/-- A seed-like product matched by the query "oud" in name and category. -/
def pRoyal : Product :=
  ⟨"r1", "Royal OUD", "Tihamis", "A sophisticated blend", "oud", 1600⟩

/-- Witness for `search_literal_query_substring`: the literal query "oud"
agrees with the substring semantics on a concrete catalog and finds the
product whose name contains "OUD"; the empty query returns the catalog. -/
theorem search_literal_query_substring_witness :
    searchRoute "oud" [pRoyal] = some (searchSpec "oud" [pRoyal])
    ∧ searchRoute "" [pRoyal] = some [pRoyal]
    ∧ searchRoute "oud" [pRoyal] = some [pRoyal] :=
  ⟨(search_literal_query_substring "oud" [pRoyal] (by decide)).1,
   (search_literal_query_substring "oud" [pRoyal] (by decide)).2,
   by decide⟩
